import Mathlib

/-!
Verification development for the trainer-client coaching repository.

The repository consists of a SQL schema with two PL/pgSQL functions
(src/unnamed/part_000: tables, `handle_new_user`, `add_client_by_email`,
`create_full_program`) and a Deno serverless handler
(src/supabase/functions/food-scan/index.ts).

This file shallowly embeds the data model and the operations:

* JSON values, a JSON text parser and serializer (modelling the JS builtins
  `JSON.parse` / `JSON.stringify` and the Postgres `json`/`jsonb` values used
  by the stored procedures; number literals are modelled as integers, which
  covers every numeric value appearing in the source and in the claims);
* the relevant tables as lists of row structures, with the identity columns
  modelled by explicit counters (`created_at` timestamp columns carry no
  claim-relevant content and are omitted);
* the three server-side functions and the food-scan request handler.

Definitions are translated from the source files; where a JS regex global
replace or a Postgres cast is involved, the embedding mirrors its observable
behaviour and says so in a comment.
-/

/-- JSON values.  Numbers are modelled as integers: every numeric literal in
the source and in the concrete inputs of the claims is integral. -/
inductive Json where
  | null
  | bool (b : Bool)
  | num (n : Int)
  | str (s : String)
  | arr (xs : List Json)
  | obj (fields : List (String × Json))

/-- Whitespace characters recognised by `String.prototype.trim` and by the
JSON grammar (space, newline, tab, carriage return). -/
def isWsChar (c : Char) : Bool :=
  c = ' ' || c = '\n' || c = '\t' || c = '\r'

/-- Drop leading whitespace. -/
def skipWs (l : List Char) : List Char := l.dropWhile isWsChar

/-- Embedding of `String.prototype.trim` on character lists. -/
def trimL (l : List Char) : List Char :=
  ((l.dropWhile isWsChar).reverse.dropWhile isWsChar).reverse

/-- Embedding of `String.prototype.trim`. -/
def jsTrim (s : String) : String := String.mk (trimL s.data)

/-- One step per output character of a global (leftmost, non-overlapping)
replacement of `pat` by the empty string, as performed by
`String.prototype.replace` with a global literal regex.  The fuel argument
makes the definition structural; `replaceAllL` supplies enough fuel. -/
def replaceAllFuel (pat : List Char) : Nat → List Char → List Char
  | 0, l => l
  | _ + 1, [] => []
  | f + 1, c :: rest =>
    if !pat.isEmpty && pat.isPrefixOf (c :: rest) then
      replaceAllFuel pat f (rest.drop (pat.length - 1))
    else
      c :: replaceAllFuel pat f rest

/-- Remove every (leftmost, non-overlapping) occurrence of `pat` from `l`:
the behaviour of `.replace(/pat/g, \x27\x27)` for a literal pattern. -/
def replaceAllL (pat l : List Char) : List Char := replaceAllFuel pat l.length l

/-- Embedding of `s.replace(/pat/g, \x27\x27)` for a literal pattern `pat`. -/
def jsRemoveAll (pat s : String) : String := String.mk (replaceAllL pat.data s.data)

/-- Fence stripping as written in src/supabase/functions/food-scan/index.ts
lines 63-66: `text.replace(/```json/g, \x27\x27).replace(/```/g, \x27\x27).trim()`. -/
def codeStrip (s : String) : String :=
  jsTrim (jsRemoveAll "```" (jsRemoveAll "```json" s))

/-- Output escaping for one character, as in `JSON.stringify` (the characters
requiring a numeric escape do not occur in any claim input). -/
def escOut (c : Char) : List Char :=
  if c = '"' then ['\\', '"']
  else if c = '\\' then ['\\', '\\']
  else if c = '\n' then ['\\', 'n']
  else if c = '\t' then ['\\', 't']
  else if c = '\r' then ['\\', 'r']
  else [c]

/-- Serialize the characters of a string with `JSON.stringify` escaping. -/
def escStr (s : String) : List Char := (s.data.map escOut).flatten

mutual

/-- Characters of the `JSON.stringify` serialization of a value. -/
def stringifyJ : Json → List Char
  | .null => "null".data
  | .bool true => "true".data
  | .bool false => "false".data
  | .num n => (toString n).data
  | .str s => '"' :: escStr s ++ ['"']
  | .arr xs => '[' :: stringifyArr xs ++ [']']
  | .obj fs => '\x7b' :: stringifyFields fs ++ ['\x7d']

/-- Comma-separated serialization of array elements. -/
def stringifyArr : List Json → List Char
  | [] => []
  | [x] => stringifyJ x
  | x :: y :: xs => stringifyJ x ++ ',' :: stringifyArr (y :: xs)

/-- Comma-separated serialization of object fields, in stored order (JS
objects preserve insertion order). -/
def stringifyFields : List (String × Json) → List Char
  | [] => []
  | [(k, v)] => '"' :: escStr k ++ '"' :: ':' :: stringifyJ v
  | (k, v) :: f :: fs =>
    '"' :: escStr k ++ '"' :: ':' :: stringifyJ v ++ ',' :: stringifyFields (f :: fs)

end

/-- Embedding of `JSON.stringify`. -/
def Json.stringify (j : Json) : String := String.mk (stringifyJ j)

/-- Input unescaping for one character following a backslash (the `\\uXXXX`
form does not occur in any claim input and is not modelled). -/
def escChar (c : Char) : Char :=
  if c = 'n' then '\n'
  else if c = 't' then '\t'
  else if c = 'r' then '\r'
  else c

/-- Parse the body of a JSON string literal after the opening quote,
returning the decoded characters and the remaining input. -/
def parseStrChars : List Char → Option (List Char × List Char)
  | [] => none
  | '"' :: rest => some ([], rest)
  | '\\' :: c :: rest =>
    (parseStrChars rest).map (fun p => (escChar c :: p.1, p.2))
  | ['\\'] => none
  | c :: rest => (parseStrChars rest).map (fun p => (c :: p.1, p.2))

/-- Numeric value of a list of decimal digits. -/
def natOfDigits (l : List Char) : Nat :=
  l.foldl (fun a c => a * 10 + (c.toNat - 48)) 0

/-- Parse a non-empty run of leading decimal digits. -/
def parseDigits (l : List Char) : Option (Nat × List Char) :=
  let ds := l.takeWhile Char.isDigit
  if ds.isEmpty then none else some (natOfDigits ds, l.dropWhile Char.isDigit)

mutual

/-- Parse one JSON value (fuel-indexed recursive descent). -/
def parseVal : Nat → List Char → Option (Json × List Char)
  | 0, _ => none
  | f + 1, l =>
    match skipWs l with
    | 'n' :: 'u' :: 'l' :: 'l' :: rest => some (.null, rest)
    | 't' :: 'r' :: 'u' :: 'e' :: rest => some (.bool true, rest)
    | 'f' :: 'a' :: 'l' :: 's' :: 'e' :: rest => some (.bool false, rest)
    | '"' :: rest =>
      (parseStrChars rest).map (fun p => (Json.str (String.mk p.1), p.2))
    | '[' :: rest =>
      (match skipWs rest with
       | ']' :: r => some (Json.arr [], r)
       | _ => (parseArrItems f rest).map (fun p => (Json.arr p.1, p.2)))
    | '\x7b' :: rest =>
      (match skipWs rest with
       | '\x7d' :: r => some (Json.obj [], r)
       | _ => (parseObjItems f rest).map (fun p => (Json.obj p.1, p.2)))
    | '-' :: rest =>
      (parseDigits rest).map (fun p => (Json.num (-(p.1 : Int)), p.2))
    | c :: rest =>
      if c.isDigit then
        (parseDigits (c :: rest)).map (fun p => (Json.num (p.1 : Int), p.2))
      else none
    | [] => none

/-- Parse the comma-separated items of a non-empty JSON array, including the
closing bracket. -/
def parseArrItems : Nat → List Char → Option (List Json × List Char)
  | 0, _ => none
  | f + 1, l => do
    let (v, r) ← parseVal f l
    match skipWs r with
    | ',' :: r2 => (parseArrItems f r2).map (fun p => (v :: p.1, p.2))
    | ']' :: r2 => some ([v], r2)
    | _ => none

/-- Parse the comma-separated members of a non-empty JSON object, including
the closing brace. -/
def parseObjItems : Nat → List Char → Option (List (String × Json) × List Char)
  | 0, _ => none
  | f + 1, l =>
    match skipWs l with
    | '"' :: kr => do
      let (k, r1) ← parseStrChars kr
      match skipWs r1 with
      | ':' :: r2 => do
        let (v, r3) ← parseVal f r2
        match skipWs r3 with
        | ',' :: r4 =>
          (parseObjItems f r4).map (fun p => ((String.mk k, v) :: p.1, p.2))
        | '\x7d' :: r4 => some ([(String.mk k, v)], r4)
        | _ => none
      | _ => none
    | _ => none

end

/-- Embedding of `JSON.parse`: `none` when the JS builtin would throw a
`SyntaxError`.  Duplicate keys do not occur in any claim input. -/
def Json.parse (s : String) : Option Json :=
  match parseVal (2 * s.length + 2) s.data with
  | some (v, rest) => if (skipWs rest).isEmpty then some v else none
  | none => none

/-- First field of an object with the given key (claim inputs never use
duplicate keys, so first-match and last-match lookup agree on them). -/
def lookupField : List (String × Json) → String → Option Json
  | [], _ => none
  | (k, v) :: fs, key => if k = key then some v else lookupField fs key

/-- Property access `j[k]` on a JSON value: a field of an object, `none`
(JS `undefined`) otherwise. -/
def jGet (j : Json) (k : String) : Option Json :=
  match j with
  | .obj fs => lookupField fs k
  | _ => none

/-- Index access `j[i]` on a JSON value: an element of an array, `none`
(JS `undefined`) otherwise. -/
def jIndex (j : Json) (i : Nat) : Option Json :=
  match j with
  | .arr xs => xs.get? i
  | _ => none

/-- JavaScript truthiness of a JSON value (`if (!image)`). -/
def jsTruthy (j : Json) : Bool :=
  match j with
  | .null => false
  | .bool b => b
  | .num n => n != 0
  | .str s => s != ""
  | .arr _ => true
  | .obj _ => true

-- Sanity checks of the JSON embedding on closed inputs.
example :
    Json.parse "\x7b\"a\": 3, \"b\": [true, \"x\"]\x7d"
      = some (Json.obj [("a", .num 3), ("b", .arr [.bool true, .str "x"])]) := rfl

example : Json.stringify (Json.obj [("a", .num 3), ("b", .str "x")])
    = "\x7b\"a\":3,\"b\":\"x\"\x7d" := rfl

example : codeStrip "```json\n\x7b\"a\": 1\x7d\n```" = "\x7b\"a\": 1\x7d" := rfl

/-!
Embedding of the relational store (src/unnamed/part_000).

Tables are lists of row structures; `GENERATED ALWAYS AS IDENTITY` columns
are modelled by explicit `next_*` counters on the state.  `created_at`
columns (defaulting to `now()`) carry no claim-relevant content and are
omitted.  Row-level-security policies add no failure mode to the modelled
operations: `add_client_by_email` and `handle_new_user` are SECURITY
DEFINER, and every insert of `create_full_program` satisfies its table's
FOR ALL policy by construction (the inserted `trainer_id` is `auth.uid()`
and the parent rows were just inserted by the same caller).
-/

/-- Errors raised by the modelled SQL statements. -/
inductive PgError where
  | notNullViolation
  | checkViolation
  | uniqueViolation
  | fkViolation
  | invalidTextRepresentation
  | notAnArray
deriving DecidableEq

/-- Extraction operator `j ->> k` on jsonb: text of the named field, SQL
NULL (`none`) when the base value is not an object, the key is absent, or
the field is JSON null.  Non-string scalars are rendered as their JSON
text, as Postgres does. -/
def jFieldText (j : Json) (k : String) : Option String :=
  match jGet j k with
  | none => none
  | some .null => none
  | some (.str s) => some s
  | some v => some (Json.stringify v)

/-- Numeric value of a non-empty all-digit character list. -/
def allDigitsVal (l : List Char) : Option Nat :=
  if !l.isEmpty && l.all Char.isDigit then some (natOfDigits l) else none

/-- Signed decimal integer denoted by trimmed text, if any. -/
def signedIntOfText (s : String) : Option Int :=
  match trimL s.data with
  | '-' :: ds => (allDigitsVal ds).map (fun n => -(n : Int))
  | '+' :: ds => (allDigitsVal ds).map (fun n => (n : Int))
  | ds => (allDigitsVal ds).map (fun n => (n : Int))

/-- Embedding of the Postgres cast `text :: INT` (int4): optional sign,
decimal digits, surrounding whitespace permitted, 32-bit range check.
`none` models the `invalid_text_representation` / out-of-range error. -/
def castIntText (s : String) : Option Int :=
  (signedIntOfText s).bind
    (fun n => if -(2 ^ 31) ≤ n ∧ n ≤ 2 ^ 31 - 1 then some n else none)

/-- Embedding of the Postgres cast `text :: BIGINT` (int8). -/
def castBigintText (s : String) : Option Int :=
  (signedIntOfText s).bind
    (fun n => if -(2 ^ 63) ≤ n ∧ n ≤ 2 ^ 63 - 1 then some n else none)

/-- Cast a nullable text to INT: SQL NULL passes through, malformed text
raises. -/
def castIntOpt : Option String → Except PgError (Option Int)
  | none => .ok none
  | some s =>
    match castIntText s with
    | some n => .ok (some n)
    | none => .error .invalidTextRepresentation

/-- Cast a nullable text to BIGINT: SQL NULL passes through, malformed text
raises. -/
def castBigintOpt : Option String → Except PgError (Option Int)
  | none => .ok none
  | some s =>
    match castBigintText s with
    | some n => .ok (some n)
    | none => .error .invalidTextRepresentation

/-- Row of `profiles` (part_000 lines 7-13). -/
structure ProfileRow where
  id : String
  full_name : Option String
  email : Option String
  role : String
deriving DecidableEq

/-- Row of `clients`, the trainer-client link table (lines 18-23). -/
structure ClientLinkRow where
  trainer_id : String
  client_id : String
deriving DecidableEq

/-- Row of `exercises`, the exercise library (lines 28-35). -/
structure ExerciseRow where
  id : Int
  name : String
  description : Option String
  video_url : Option String
  creator_id : Option String
deriving DecidableEq

/-- Row of `training_programs` (lines 41-48). -/
structure ProgramRow where
  id : Int
  name : String
  description : Option String
  trainer_id : String
  client_id : String
deriving DecidableEq

/-- Row of `training_days` (lines 54-60). -/
structure DayRow where
  id : Int
  program_id : Int
  name : String
  day_order : Option Int
deriving DecidableEq

/-- Row of `program_exercises` (lines 66-76). -/
structure PeRow where
  id : Int
  day_id : Int
  exercise_id : Int
  sets : Option Int
  reps : Option String
  rest_period_seconds : Option Int
  notes : Option String
  exercise_order : Option Int
deriving DecidableEq

/-- The database state restricted to the tables the claims touch. -/
structure DB where
  profiles : List ProfileRow
  clients : List ClientLinkRow
  exercises : List ExerciseRow
  training_programs : List ProgramRow
  training_days : List DayRow
  program_exercises : List PeRow
  next_program_id : Int
  next_day_id : Int
  next_pe_id : Int
deriving DecidableEq

/-- Does a profile with this id exist (foreign-key target check)? -/
def DB.hasProfile (db : DB) (i : String) : Bool :=
  db.profiles.any (fun p => p.id = i)

/-- Insert into `profiles`, checking the constraints of lines 7-13 in the
order Postgres enforces them: NOT NULL, then the role CHECK, then the
unique indexes.  The FK to `auth.users(id)` holds by construction at the
only call site (the trigger fires after an insert into `auth.users`). -/
def insertProfileRow (db : DB) (idv : String) (emailv full_namev rolev : Option String) :
    Except PgError DB :=
  match rolev with
  | none => .error .notNullViolation
  | some r =>
    if !(r = "trainer" || r = "client") then .error .checkViolation
    else if db.profiles.any (fun p => p.id = idv) then .error .uniqueViolation
    else if (match emailv with
             | some e => db.profiles.any (fun p => p.email = some e)
             | none => false) then .error .uniqueViolation
    else .ok { db with profiles := db.profiles ++ [⟨idv, full_namev, emailv, r⟩] }

/-- Embedding of the signup trigger function `handle_new_user`
(part_000 lines 201-213): inserts one profile row with `full_name` and
`role` taken from the registration metadata via `->>`.  An error aborts
the surrounding account-creation transaction. -/
def handle_new_user (db : DB) (new_id : String) (new_email : Option String)
    (raw_user_meta_data : Json) : Except PgError DB :=
  insertProfileRow db new_id new_email
    (jFieldText raw_user_meta_data "full_name")
    (jFieldText raw_user_meta_data "role")

/-- The `SELECT id, role INTO client_record FROM profiles WHERE email =
client_email` of lines 253-255.  `email` is unique, so at most one row
matches; rows with NULL email never match an equality. -/
def findProfileByEmail (db : DB) (e : String) : Option ProfileRow :=
  db.profiles.find? (fun p => p.email = some e)

/-- Insert into `clients` (lines 267-268).  The unique (primary-key) index
is checked before the FK after-row triggers fire; a NULL `trainer_id`
(unauthenticated caller) is a NOT NULL violation. -/
def insertClientLink (db : DB) (trainer : Option String) (client : String) :
    Except PgError DB :=
  match trainer with
  | none => .error .notNullViolation
  | some t =>
    if db.clients.any (fun c => c.trainer_id = t && c.client_id = client) then
      .error .uniqueViolation
    else if !(db.hasProfile t) then .error .fkViolation
    else if !(db.hasProfile client) then .error .fkViolation
    else .ok { db with clients := db.clients ++ [⟨t, client⟩] }

/-- Result literal of line 259. -/
def notFoundJson : Json :=
  .obj [("status", .str "error"),
        ("message", .str "Nessun utente trovato con questa email.")]

/-- Result literal of line 263. -/
def wrongRoleJson : Json :=
  .obj [("status", .str "error"),
        ("message", .str "L\x27utente trovato non è un cliente.")]

/-- Result literal of line 273 (the `unique_violation` handler). -/
def alreadyAddedJson : Json :=
  .obj [("status", .str "error"),
        ("message", .str "Questo cliente è già stato aggiunto.")]

/-- Result literal of line 275 (the `WHEN OTHERS` handler). -/
def unexpectedJson : Json :=
  .obj [("status", .str "error"),
        ("message", .str "Si è verificato un errore imprevisto.")]

/-- Result literal of line 270. -/
def addSuccessJson (cid : String) : Json :=
  .obj [("status", .str "success"),
        ("message", .str "Cliente aggiunto con successo!"),
        ("client_id", .str cid)]

/-- Embedding of `add_client_by_email` (part_000 lines 247-277).  The
EXCEPTION block catches every error of the insert, and a caught error
rolls the block's changes back, so the function is total and returns the
unchanged state on every error branch. -/
def add_client_by_email (db : DB) (auth_uid : Option String) (client_email : String) :
    DB × Json :=
  match findProfileByEmail db client_email with
  | none => (db, notFoundJson)
  | some p =>
    if p.role ≠ "client" then (db, wrongRoleJson)
    else
      match insertClientLink db auth_uid p.id with
      | .ok db2 => (db2, addSuccessJson p.id)
      | .error .uniqueViolation => (db, alreadyAddedJson)
      | .error _ => (db, unexpectedJson)

/-- Insert into `training_programs` (lines 341-343) returning the generated
id.  Column expressions carry no casts; NOT NULL is checked on `name`,
`trainer_id` and `client_id`, then the two FKs to `profiles`. -/
def insertProgramRow (db : DB) (auth_uid : Option String)
    (namev descv clientv : Option String) : Except PgError (DB × Int) :=
  match namev with
  | none => .error .notNullViolation
  | some nm =>
    match auth_uid with
    | none => .error .notNullViolation
    | some t =>
      match clientv with
      | none => .error .notNullViolation
      | some c =>
        if !(db.hasProfile t) then .error .fkViolation
        else if !(db.hasProfile c) then .error .fkViolation
        else
          let pid := db.next_program_id
          .ok ({ db with
                   training_programs := db.training_programs ++ [⟨pid, nm, descv, t, c⟩],
                   next_program_id := pid + 1 }, pid)

/-- The `jsonb_array_elements(days :: jsonb)` of line 346: the elements in
array order, or the `cannot extract elements` error on a non-array. -/
def jsonbArrayElems (j : Json) : Except PgError (List Json) :=
  match j with
  | .arr xs => .ok xs
  | _ => .error .notAnArray

/-- The `jsonb_array_elements(day_data -> 'exercises')` of line 354.  An
absent key (or a non-object day) gives SQL NULL, and the strict
set-returning function then yields no rows; a present non-array value
raises. -/
def dayExercisesElems (d : Json) : Except PgError (List Json) :=
  match jGet d "exercises" with
  | none => .ok []
  | some (.arr xs) => .ok xs
  | some _ => .error .notAnArray

/-- Insert into `training_days` (lines 349-351) returning the generated id.
The `(day_data ->> 'day_order') :: INT` cast is evaluated before the NOT
NULL check on `name` (expressions are evaluated before constraints).  The
FK to the just-inserted program holds by construction. -/
def insertDayRow (db : DB) (pid : Int) (d : Json) : Except PgError (DB × Int) := do
  let orderv ← castIntOpt (jFieldText d "day_order")
  match jFieldText d "name" with
  | none => .error .notNullViolation
  | some nm =>
    let did := db.next_day_id
    .ok ({ db with
             training_days := db.training_days ++ [⟨did, pid, nm, orderv⟩],
             next_day_id := did + 1 }, did)

/-- Insert into `program_exercises` (lines 356-365).  The VALUES casts are
evaluated left to right, then NOT NULL on `exercise_id`, then the unique
index on (day_id, exercise_id, exercise_order) — NULL orders never
conflict — and last the FK to `exercises`. -/
def insertPeRow (db : DB) (did : Int) (e : Json) : Except PgError DB := do
  let exidOpt ← castBigintOpt (jFieldText e "exercise_id")
  let setsv ← castIntOpt (jFieldText e "sets")
  let repsv := jFieldText e "reps"
  let restv ← castIntOpt (jFieldText e "rest_period_seconds")
  let orderv ← castIntOpt (jFieldText e "exercise_order")
  let notesv := jFieldText e "notes"
  match exidOpt with
  | none => .error .notNullViolation
  | some exid =>
    if (match orderv with
        | some o => db.program_exercises.any
            (fun r => r.day_id = did && r.exercise_id = exid && r.exercise_order = some o)
        | none => false) then .error .uniqueViolation
    else if !(db.exercises.any (fun x => x.id = exid)) then .error .fkViolation
    else .ok { db with
                 program_exercises := db.program_exercises ++
                   [⟨db.next_pe_id, did, exid, setsv, repsv, restv, notesv, orderv⟩],
                 next_pe_id := db.next_pe_id + 1 }

/-- The inner loop of lines 354-366: insert each exercise descriptor of one
day, in input order. -/
def insertPeRows : DB → Int → List Json → Except PgError DB
  | db, _, [] => .ok db
  | db, did, e :: rest => (insertPeRow db did e).bind (fun db2 => insertPeRows db2 did rest)

/-- The outer loop of lines 346-367: insert each day descriptor in input
order, then its exercise descriptors. -/
def insertDaysLoop : DB → Int → List Json → Except PgError DB
  | db, _, [] => .ok db
  | db, pid, d :: rest =>
    (insertDayRow db pid d).bind (fun r =>
      (dayExercisesElems d).bind (fun exs =>
        (insertPeRows r.1 r.2 exs).bind (fun db3 =>
          insertDaysLoop db3 pid rest)))

/-- Result literal of line 369. -/
def programSuccessJson (pid : Int) : Json :=
  .obj [("status", .str "success"),
        ("message", .str "Program created successfully"),
        ("program_id", .num pid)]

/-- Embedding of `create_full_program` (part_000 lines 332-371).  The
function has no EXCEPTION handler, so the first error of any statement
propagates out of the function (`Except.error`). -/
def create_full_program (db : DB) (auth_uid : Option String)
    (program_name program_description client_id_in : Option String) (days : Json) :
    Except PgError (DB × Json) := do
  let (db1, pid) ← insertProgramRow db auth_uid program_name program_description client_id_in
  let dayList ← jsonbArrayElems days
  let db2 ← insertDaysLoop db1 pid dayList
  .ok (db2, programSuccessJson pid)

/-- What an RPC caller observes: either the returned JSON document, or a
raised (thrown) Postgres error. -/
inductive RpcOutcome where
  | data (j : Json)
  | err (e : PgError)

/-- One RPC call to `create_full_program`: the function body runs inside
the single transaction of the call, and an uncaught PL/pgSQL error aborts
that transaction, so on error the observable post-state is the pre-call
state (Postgres rollback semantics). -/
def create_full_program_rpc (db : DB) (auth_uid : Option String)
    (program_name program_description client_id_in : Option String) (days : Json) :
    DB × RpcOutcome :=
  match create_full_program db auth_uid program_name program_description client_id_in days with
  | .ok (db2, j) => (db2, .data j)
  | .error e => (db, .err e)

/-!
Embedding of the food-scan serverless handler
(src/supabase/functions/food-scan/index.ts).

The handler makes at most one outbound call; its interaction with the
upstream vision API is modelled by an `Upstream` value describing what that
call would yield, and the response records in `upstreamCalled` whether the
`fetch` was reached.  Thrown JS errors are all caught by the surrounding
try/catch and become HTTP 400 responses whose body carries the error
message; engine-specific message texts (from `JSON.parse`, property access
on `undefined`, etc.) are modelled by fixed placeholder strings, which no
claim inspects.
-/

/-- An incoming HTTP request: its method and the result of `req.json()`
(`none` when the body is not valid JSON and `req.json()` throws). -/
structure ScanReq where
  method : String
  body : Option Json

/-- What the single outbound `fetch` to the vision API would yield:
a non-ok HTTP response (status text and error body), an ok response whose
body is not valid JSON, or an ok response with its parsed JSON body. -/
inductive Upstream where
  | httpError (statusText bodyText : String)
  | badJson
  | json (data : Json)

/-- The handler's observable outcome: HTTP status, response body text, and
whether the outbound call was made. -/
structure ScanResp where
  status : Nat
  body : String
  upstreamCalled : Bool
deriving DecidableEq

/-- Failure response body `JSON.stringify({ error: message })` (lines 75-78). -/
def errBody (msg : String) : String :=
  Json.stringify (.obj [("error", .str msg)])

/-- Placeholder for the engine-specific message of a failed `req.json()`. -/
def reqJsonErrMsg : String := "SyntaxError: request body is not JSON"

/-- Placeholder for the engine-specific message of destructuring `null`. -/
def destructureErrMsg : String := "TypeError: cannot destructure null"

/-- Placeholder for the engine-specific message of a failed
`geminiResponse.json()`. -/
def upstreamBadJsonMsg : String := "SyntaxError: upstream body is not JSON"

/-- Placeholder for the engine-specific message of the candidate-path
access failing (`undefined` dereference or `.replace` on a non-string). -/
def extractErrMsg : String := "TypeError: cannot read reply text"

/-- Placeholder for the engine-specific message of `JSON.parse` failing on
the stripped reply. -/
def parseErrMsg : String := "SyntaxError: reply is not JSON"

/-- The reply-text extraction of line 63:
`geminiData.candidates[0].content.parts[0].text`, which must be a string
for the subsequent `.replace` calls to succeed. -/
def extractReplyText (data : Json) : Option String := do
  let cs ← jGet data "candidates"
  let c0 ← jIndex cs 0
  let ct ← jGet c0 "content"
  let ps ← jGet ct "parts"
  let p0 ← jIndex ps 0
  let t ← jGet p0 "text"
  match t with
  | .str s => some s
  | _ => none

/-- Lines 47-73: the outbound call and the processing of its reply.  Every
branch has made the `fetch`, so `upstreamCalled` is true throughout. -/
def callUpstream : Upstream → ScanResp
  | .httpError st bodyText =>
    ⟨400, errBody ("Gemini API error: " ++ st ++ " - " ++ bodyText), true⟩
  | .badJson => ⟨400, errBody upstreamBadJsonMsg, true⟩
  | .json data =>
    match extractReplyText data with
    | none => ⟨400, errBody extractErrMsg, true⟩
    | some text =>
      match Json.parse (codeStrip text) with
      | none => ⟨400, errBody parseErrMsg, true⟩
      | some nd => ⟨200, Json.stringify nd, true⟩

/-- Embedding of the `serve` handler (index.ts lines 13-80).  The OPTIONS
preflight returns the literal body "ok"; destructuring `{ image }` from a
null body throws; a missing or falsy `image` throws before the `fetch`. -/
def serveHandler (req : ScanReq) (up : Upstream) : ScanResp :=
  if req.method = "OPTIONS" then ⟨200, "ok", false⟩
  else
    match req.body with
    | none => ⟨400, errBody reqJsonErrMsg, false⟩
    | some Json.null => ⟨400, errBody destructureErrMsg, false⟩
    | some b =>
      match jGet b "image" with
      | none => ⟨400, errBody "No image data provided.", false⟩
      | some iv =>
        if jsTruthy iv then callUpstream up
        else ⟨400, errBody "No image data provided.", false⟩

/-- C7.  A POST request whose body lacks an `image` field, or whose `image`
field is the empty string, is answered with HTTP 400 and the upstream
vision API is never called. -/
theorem food_scan_missing_image_no_upstream (b : Json) (up : Upstream)
    (h : jGet b "image" = none ∨ jGet b "image" = some (Json.str "")) :
    (serveHandler ⟨"POST", some b⟩ up).status = 400 ∧
    (serveHandler ⟨"POST", some b⟩ up).upstreamCalled = false := by
  rcases h with h | h <;> cases b <;>
    simp_all [serveHandler, jGet, jsTruthy]

/-- Witness for C7 at a concrete request body with an empty image field. -/
theorem food_scan_missing_image_no_upstream_witness :
    (jGet (Json.obj [("image", Json.str "")]) "image" = none ∨
      jGet (Json.obj [("image", Json.str "")]) "image" = some (Json.str "")) ∧
    (serveHandler ⟨"POST", some (Json.obj [("image", Json.str "")])⟩
        (Upstream.json Json.null)).status = 400 ∧
    (serveHandler ⟨"POST", some (Json.obj [("image", Json.str "")])⟩
        (Upstream.json Json.null)).upstreamCalled = false :=
  ⟨Or.inr rfl,
   food_scan_missing_image_no_upstream (Json.obj [("image", Json.str "")])
     (Upstream.json Json.null) (Or.inr rfl)⟩

/-- Upstream reply used against C5: the model reply carries the four
requested fields plus an extra one, and the handler forwards all of them. -/
def c5ExtraFieldData : Json :=
  .obj [("candidates", .arr [
    .obj [("content", .obj [("parts", .arr [
      .obj [("text", .str "```json\n\x7b\"calories_kcal\": 450, \"protein_g\": 20, \"carb_g\": 55, \"fat_g\": 15, \"confidence\": 1\x7d\n```")]])])]])]

/-- Counterexample to C5 as stated: on this request the handler answers
HTTP 200, yet the response body is a mapping with five fields — the
handler performs no shape validation on the model reply. -/
theorem food_scan_success_extra_field_cex :
    (serveHandler ⟨"POST", some (Json.obj [("image", Json.str "img64")])⟩
        (Upstream.json c5ExtraFieldData)).status = 200 ∧
    Json.parse (serveHandler ⟨"POST", some (Json.obj [("image", Json.str "img64")])⟩
        (Upstream.json c5ExtraFieldData)).body
      = some (Json.obj [("calories_kcal", .num 450), ("protein_g", .num 20),
                        ("carb_g", .num 55), ("fat_g", .num 15), ("confidence", .num 1)]) :=
  ⟨rfl, rfl⟩

/-- C5 amended.  On a successful POST the response body is exactly the
serialization of the upstream reply text stripped of fences, trimmed and
parsed as JSON — a pure passthrough with no shape validation, so the body
is a mapping with exactly the four numeric fields precisely when the model
reply is. -/
theorem food_scan_success_passthrough_amended
    (b iv data : Json) (text : String) (v : Json)
    (hiv : jGet b "image" = some iv) (htr : jsTruthy iv = true)
    (hex : extractReplyText data = some text)
    (hp : Json.parse (codeStrip text) = some v) :
    serveHandler ⟨"POST", some b⟩ (Upstream.json data)
      = ⟨200, Json.stringify v, true⟩ := by
  cases b <;> simp_all [serveHandler, jGet, callUpstream]

/-- Witness for the amended C5: a compliant model reply with exactly the
four numeric fields passes through unchanged. -/
theorem food_scan_success_passthrough_amended_witness :
    jGet (Json.obj [("image", Json.str "img64")]) "image" = some (Json.str "img64") ∧
    jsTruthy (Json.str "img64") = true ∧
    extractReplyText (Json.obj [("candidates", .arr [
        .obj [("content", .obj [("parts", .arr [
          .obj [("text", .str "```json\n\x7b\"calories_kcal\": 450, \"protein_g\": 20, \"carb_g\": 55, \"fat_g\": 15\x7d\n```")]])])]])])
      = some "```json\n\x7b\"calories_kcal\": 450, \"protein_g\": 20, \"carb_g\": 55, \"fat_g\": 15\x7d\n```" ∧
    Json.parse (codeStrip "```json\n\x7b\"calories_kcal\": 450, \"protein_g\": 20, \"carb_g\": 55, \"fat_g\": 15\x7d\n```")
      = some (Json.obj [("calories_kcal", .num 450), ("protein_g", .num 20),
                        ("carb_g", .num 55), ("fat_g", .num 15)]) ∧
    serveHandler ⟨"POST", some (Json.obj [("image", Json.str "img64")])⟩
        (Upstream.json (Json.obj [("candidates", .arr [
          .obj [("content", .obj [("parts", .arr [
            .obj [("text", .str "```json\n\x7b\"calories_kcal\": 450, \"protein_g\": 20, \"carb_g\": 55, \"fat_g\": 15\x7d\n```")]])])]])]))
      = ⟨200, Json.stringify (Json.obj [("calories_kcal", .num 450), ("protein_g", .num 20),
              ("carb_g", .num 55), ("fat_g", .num 15)]), true⟩ :=
  ⟨rfl, rfl, rfl, rfl,
   food_scan_success_passthrough_amended
     (Json.obj [("image", Json.str "img64")]) (Json.str "img64") _ _ _
     rfl rfl rfl rfl⟩

/-- Reply text used against C6: a JSON object wrapped in fence markers whose
inner string value itself contains three backticks. -/
def c6ReplyText : String := "```json\n\x7b\"a\": \"x```y\"\x7d\n```"

/-- The part of `c6ReplyText` between the wrapping fence markers. -/
def c6Body : String := "\n\x7b\"a\": \"x```y\"\x7d\n"

/-- Counterexample to C6 as stated: for this wrapped reply the handler's
parsed result differs from the reply with the wrapping markers stripped,
trimmed and parsed — the global replace also deletes the backticks inside
the string value. -/
theorem fence_strip_backtick_cex :
    c6ReplyText = "```json" ++ c6Body ++ "```" ∧
    Json.parse (codeStrip c6ReplyText) = some (Json.obj [("a", Json.str "xy")]) ∧
    Json.parse (jsTrim c6Body) = some (Json.obj [("a", Json.str "x```y")]) ∧
    Json.parse (codeStrip c6ReplyText) ≠ Json.parse (jsTrim c6Body) := by
  refine ⟨rfl, rfl, rfl, ?_⟩
  rw [show Json.parse (codeStrip c6ReplyText) = some (Json.obj [("a", Json.str "xy")]) from rfl,
      show Json.parse (jsTrim c6Body) = some (Json.obj [("a", Json.str "x```y")]) from rfl]
  simp

/-- A pattern strictly longer than the list is never a prefix of it. -/
theorem isPrefixOf_false_of_longer :
    ∀ (l₁ l₂ : List Char), l₂.length < l₁.length → l₁.isPrefixOf l₂ = false
  | [], _, h => absurd h (Nat.not_lt_zero _)
  | _ :: _, [], _ => rfl
  | a :: as, b :: bs, h => by
    have ih := isPrefixOf_false_of_longer as bs (Nat.lt_of_succ_lt_succ h)
    simp [List.isPrefixOf, ih]

/-- A list is a prefix of itself followed by anything. -/
theorem isPrefixOf_append_self :
    ∀ (l₁ l₂ : List Char), l₁.isPrefixOf (l₁ ++ l₂) = true
  | [], _ => by simp [List.isPrefixOf]
  | _ :: as, l₂ => by simp [List.isPrefixOf, isPrefixOf_append_self as l₂]

/-- Dropping the length of the left part of an append yields the right part. -/
theorem drop_length_append :
    ∀ (l₁ l₂ : List Char), (l₁ ++ l₂).drop l₁.length = l₂
  | [], _ => rfl
  | _ :: as, l₂ => drop_length_append as l₂

/-- Global removal leaves a list shorter than the pattern unchanged,
whatever the fuel. -/
theorem replaceAllFuel_of_longer (pat : List Char) :
    ∀ (f : Nat) (l : List Char), l.length < pat.length → replaceAllFuel pat f l = l
  | 0, l, _ => rfl
  | _ + 1, [], _ => rfl
  | f + 1, c :: rest, h => by
    have hpre := isPrefixOf_false_of_longer pat (c :: rest) h
    have ih := replaceAllFuel_of_longer pat f rest
      (Nat.lt_of_le_of_lt (Nat.le_succ _) h)
    simp [replaceAllFuel, hpre, ih]

/-- Head occurrence of the pattern: one removal step consumes the pattern
and one unit of fuel. -/
theorem replaceAllFuel_head_match (p : Char) (ps : List Char) (f : Nat) (l : List Char) :
    replaceAllFuel (p :: ps) (f + 1) (p :: (ps ++ l)) = replaceAllFuel (p :: ps) f l := by
  have hpre : (p :: ps).isPrefixOf (p :: (ps ++ l)) = true := by
    simpa using isPrefixOf_append_self (p :: ps) l
  have hdrop : (ps ++ l).drop ((p :: ps).length - 1) = l := by
    simpa using drop_length_append ps l
  simp [replaceAllFuel, hpre, hdrop]

/-- Removal commutes with an append whose left part avoids the head of the
pattern: the pattern cannot match at any position inside it. -/
theorem replaceAllFuel_append_clean (p : Char) (ps : List Char) :
    ∀ (l₁ : List Char) (f : Nat) (l₂ : List Char),
      (∀ c ∈ l₁, c ≠ p) → l₁.length ≤ f →
      replaceAllFuel (p :: ps) f (l₁ ++ l₂)
        = l₁ ++ replaceAllFuel (p :: ps) (f - l₁.length) l₂
  | [], f, l₂, _, _ => by simp
  | c :: l₁, 0, l₂, _, hf => by simp at hf
  | c :: l₁, f + 1, l₂, h, hf => by
    have hc : (p == c) = false := by
      have hcp : c ≠ p := h c (List.mem_cons_self c l₁)
      exact beq_eq_false_iff_ne.mpr (fun hh => hcp hh.symm)
    have hcond : ((p :: ps).isPrefixOf (c :: (l₁ ++ l₂))) = false := by
      simp [List.isPrefixOf, hc]
    have ih := replaceAllFuel_append_clean p ps l₁ f l₂
      (fun d hd => h d (List.mem_cons_of_mem c hd))
      (Nat.le_of_succ_le_succ hf)
    simp [replaceAllFuel, hcond, ih, Nat.succ_sub_succ]

/-- The fence stripping of the handler, applied to a reply that wraps a
backtick-free text in the fence markers, returns exactly that text
trimmed. -/
theorem codeStrip_wrapped_eq (b : String) (hb : ∀ c ∈ b.data, c ≠ '`') :
    codeStrip ("```json" ++ b ++ "```") = jsTrim b := by
  have hdata : ("```json" ++ b ++ "```").data
      = "```json".data ++ (b.data ++ "```".data) := by
    rw [String.data_append, String.data_append, List.append_assoc]
  have hlen1 : ("```json".data ++ (b.data ++ "```".data)).length
      = ((b.data ++ "```".data).length + 6) + 1 := by
    simp [List.length_append]
  have e1 : replaceAllFuel "```json".data
        (((b.data ++ "```".data).length + 6) + 1)
        ("```json".data ++ (b.data ++ "```".data))
      = replaceAllFuel "```json".data ((b.data ++ "```".data).length + 6)
        (b.data ++ "```".data) :=
    replaceAllFuel_head_match '`' "``json".data
      ((b.data ++ "```".data).length + 6) (b.data ++ "```".data)
  have e2 : replaceAllFuel "```json".data ((b.data ++ "```".data).length + 6)
        (b.data ++ "```".data)
      = b.data ++ replaceAllFuel "```json".data
          (((b.data ++ "```".data).length + 6) - b.data.length) "```".data :=
    replaceAllFuel_append_clean '`' "``json".data b.data
      ((b.data ++ "```".data).length + 6) "```".data hb
      (by simp [List.length_append]; omega)
  have e3 : replaceAllFuel "```json".data
        (((b.data ++ "```".data).length + 6) - b.data.length) "```".data
      = "```".data :=
    replaceAllFuel_of_longer "```json".data _ "```".data (by simp)
  have step1 : jsRemoveAll "```json" ("```json" ++ b ++ "```")
      = String.mk (b.data ++ "```".data) := by
    unfold jsRemoveAll replaceAllL
    rw [hdata, hlen1, e1, e2, e3]
  have hlen2 : (b.data ++ "```".data).length - b.data.length = 3 := by
    simp [List.length_append]
  have e4 : replaceAllFuel "```".data ((b.data ++ "```".data).length)
        (b.data ++ "```".data)
      = b.data ++ replaceAllFuel "```".data
          ((b.data ++ "```".data).length - b.data.length) "```".data :=
    replaceAllFuel_append_clean '`' "``".data b.data
      ((b.data ++ "```".data).length) "```".data hb
      (by simp [List.length_append])
  have step2 : jsRemoveAll "```" (String.mk (b.data ++ "```".data))
      = String.mk b.data := by
    unfold jsRemoveAll replaceAllL
    rw [show (String.mk (b.data ++ "```".data)).data = b.data ++ "```".data from rfl,
        e4, hlen2]
    rw [show replaceAllFuel "```".data 3 "```".data = ([] : List Char) from rfl]
    rw [List.append_nil]
  unfold codeStrip
  rw [step1, step2]

/-- C6 amended.  For every upstream reply wrapping a backtick-free text in
the fence markers, the handler's parsed result equals that inner text
trimmed and parsed as JSON.  (The counterexample shows that when the inner
text itself contains backticks, the handler's global replace deletes them
and the results differ.) -/
theorem fence_strip_wrapped_no_backtick_amended (b : String)
    (hb : ∀ c ∈ b.data, c ≠ '`') :
    Json.parse (codeStrip ("```json" ++ b ++ "```")) = Json.parse (jsTrim b) := by
  rw [codeStrip_wrapped_eq b hb]

/-- Witness for the amended C6 at a concrete wrapped JSON object. -/
theorem fence_strip_wrapped_no_backtick_amended_witness :
    (∀ c ∈ "\n\x7b\"ok\": 1\x7d\n".data, c ≠ '`') ∧
    Json.parse (codeStrip ("```json" ++ "\n\x7b\"ok\": 1\x7d\n" ++ "```"))
      = Json.parse (jsTrim "\n\x7b\"ok\": 1\x7d\n") :=
  ⟨by decide, fence_strip_wrapped_no_backtick_amended "\n\x7b\"ok\": 1\x7d\n" (by decide)⟩

/-- Concrete database used by witnesses: one trainer, one client, one
library exercise. -/
def dbW : DB :=
  ⟨[⟨"t1", some "Tina", some "t@x", "trainer"⟩,
    ⟨"c1", some "Carl", some "c@x", "client"⟩],
   [], [⟨1, "Squat", none, none, none⟩], [], [], [], 1, 1, 1⟩

/-- Day list whose single exercise references the nonexistent exercise 99. -/
def daysBadExercise : Json :=
  .arr [.obj [("name", .str "Day 1"), ("day_order", .num 1),
              ("exercises", .arr [.obj [("exercise_id", .num 99), ("sets", .num 3),
                                        ("reps", .str "8-12"),
                                        ("rest_period_seconds", .num 60),
                                        ("exercise_order", .num 1)]])]]

/-- Day list whose single exercise carries a malformed numeric field. -/
def daysMalformed : Json :=
  .arr [.obj [("name", .str "Day 1"), ("day_order", .num 1),
              ("exercises", .arr [.obj [("exercise_id", .num 1),
                                        ("sets", .str "many")]])]]

/-- C1.  When any insert of `create_full_program` fails, the error aborts
the single transaction of the RPC call: the observable state afterwards is
exactly the pre-call state — no program, day or assignment row from this
call remains visible to any other operation. -/
theorem create_full_program_failure_rolls_back
    (db : DB) (uid pn pd cid : Option String) (days : Json) (e : PgError)
    (h : create_full_program db uid pn pd cid days = .error e) :
    create_full_program_rpc db uid pn pd cid days = (db, .err e) ∧
    (create_full_program_rpc db uid pn pd cid days).1.training_programs
      = db.training_programs ∧
    (create_full_program_rpc db uid pn pd cid days).1.training_days
      = db.training_days ∧
    (create_full_program_rpc db uid pn pd cid days).1.program_exercises
      = db.program_exercises := by
  have h2 : create_full_program_rpc db uid pn pd cid days = (db, .err e) := by
    unfold create_full_program_rpc
    rw [h]
  exact ⟨h2, by rw [h2], by rw [h2], by rw [h2]⟩

/-- Witness for C1: a bad exercise id fails the innermost insert and the
call leaves the state untouched. -/
theorem create_full_program_failure_rolls_back_witness :
    create_full_program dbW (some "t1") (some "Program A") none (some "c1") daysBadExercise
      = .error PgError.fkViolation ∧
    create_full_program_rpc dbW (some "t1") (some "Program A") none (some "c1") daysBadExercise
      = (dbW, .err PgError.fkViolation) :=
  ⟨rfl,
   (create_full_program_failure_rolls_back dbW (some "t1") (some "Program A") none
     (some "c1") daysBadExercise PgError.fkViolation rfl).1⟩

/-- C8.  With an empty `days` array, `create_full_program` succeeds for an
existing trainer and client, inserting exactly one program row and no day
or assignment rows, and returns the success document with the new id. -/
theorem create_full_program_empty_days
    (db : DB) (t c nm : String) (pd : Option String)
    (ht : db.hasProfile t = true) (hc : db.hasProfile c = true) :
    create_full_program db (some t) (some nm) pd (some c) (Json.arr [])
      = .ok ({ db with
                 training_programs := db.training_programs
                   ++ [⟨db.next_program_id, nm, pd, t, c⟩],
                 next_program_id := db.next_program_id + 1 },
             programSuccessJson db.next_program_id) := by
  simp [create_full_program, insertProgramRow, ht, hc, jsonbArrayElems,
        insertDaysLoop, bind, Except.bind]

/-- Witness for C8 on the concrete database. -/
theorem create_full_program_empty_days_witness :
    dbW.hasProfile "t1" = true ∧ dbW.hasProfile "c1" = true ∧
    create_full_program dbW (some "t1") (some "Empty") none (some "c1") (Json.arr [])
      = .ok ({ dbW with
                 training_programs := dbW.training_programs
                   ++ [⟨dbW.next_program_id, "Empty", none, "t1", "c1"⟩],
                 next_program_id := dbW.next_program_id + 1 },
             programSuccessJson dbW.next_program_id) :=
  ⟨rfl, rfl, create_full_program_empty_days dbW "t1" "c1" "Empty" none rfl rfl⟩

/-- Counterexample to C4 as stated: this failing call to
`create_full_program` (a malformed numeric field) reaches the caller as a
raised error, not as a tagged result document. -/
theorem create_full_program_failure_raises_cex :
    (create_full_program_rpc dbW (some "t1") (some "Program A") none (some "c1")
        daysMalformed).2
      = RpcOutcome.err PgError.invalidTextRepresentation ∧
    ¬ ∃ j, (create_full_program_rpc dbW (some "t1") (some "Program A") none (some "c1")
        daysMalformed).2 = RpcOutcome.data j := by
  constructor
  · rfl
  · rintro ⟨j, hj⟩
    rw [show (create_full_program_rpc dbW (some "t1") (some "Program A") none (some "c1")
          daysMalformed).2 = RpcOutcome.err PgError.invalidTextRepresentation from rfl] at hj
    exact RpcOutcome.noConfusion hj

/-- Success case of the add-client operation, shared between claims: when
the email resolves to a client profile, the caller is some existing
profile, and the pair is not yet linked, the link is inserted and the
success document returned.  No condition on the caller's own role is
needed. -/
theorem add_client_success_case
    (db : DB) (t email : String) (p : ProfileRow)
    (hfind : findProfileByEmail db email = some p)
    (hrole : p.role = "client")
    (hnolink : db.clients.any (fun c => c.trainer_id = t && c.client_id = p.id) = false)
    (htp : db.hasProfile t = true) :
    add_client_by_email db (some t) email
      = ({ db with clients := db.clients ++ [⟨t, p.id⟩] }, addSuccessJson p.id) := by
  have hmem : p ∈ db.profiles := List.mem_of_find?_eq_some hfind
  have hcp : db.hasProfile p.id = true := by
    unfold DB.hasProfile
    rw [List.any_eq_true]
    exact ⟨p, hmem, by simp⟩
  unfold add_client_by_email insertClientLink
  rw [hfind]
  simp [hrole, hnolink, htp, hcp]

/-- C3.  `add_client_by_email` is a total function into tagged result
documents — it never raises — and its outcome is determined as the source
describes: no profile with the email gives the not-found document; a
non-client role gives the wrong-role document; an existing (trainer,
client) pair gives the already-added document instead of the raw
uniqueness violation; any other insert failure gives the generic document;
otherwise the link is inserted and the success document carries the
client's id. -/
theorem add_client_by_email_outcomes (db : DB) (uid : Option String) (email : String) :
    (findProfileByEmail db email = none →
       add_client_by_email db uid email = (db, notFoundJson)) ∧
    (∀ p, findProfileByEmail db email = some p → p.role ≠ "client" →
       add_client_by_email db uid email = (db, wrongRoleJson)) ∧
    (∀ p t, findProfileByEmail db email = some p → p.role = "client" → uid = some t →
       db.clients.any (fun c => c.trainer_id = t && c.client_id = p.id) = true →
       add_client_by_email db uid email = (db, alreadyAddedJson)) ∧
    (∀ p e, findProfileByEmail db email = some p → p.role = "client" →
       insertClientLink db uid p.id = .error e → e ≠ PgError.uniqueViolation →
       add_client_by_email db uid email = (db, unexpectedJson)) ∧
    (∀ p t, findProfileByEmail db email = some p → p.role = "client" → uid = some t →
       db.clients.any (fun c => c.trainer_id = t && c.client_id = p.id) = false →
       db.hasProfile t = true →
       add_client_by_email db uid email
         = ({ db with clients := db.clients ++ [⟨t, p.id⟩] }, addSuccessJson p.id)) := by
  refine ⟨?_, ?_, ?_, ?_, ?_⟩
  · intro h
    unfold add_client_by_email
    rw [h]
  · intro p hf hr
    unfold add_client_by_email
    rw [hf]
    simp [hr]
  · intro p t hf hr huid hlink
    unfold add_client_by_email insertClientLink
    rw [hf, huid]
    simp [hr, hlink]
  · intro p e hf hr hins hne
    unfold add_client_by_email
    rw [hf]
    simp only [hr, ne_eq, not_true_eq_false, if_false]
    rw [hins]
    cases e with
    | uniqueViolation => exact absurd rfl hne
    | notNullViolation => rfl
    | checkViolation => rfl
    | fkViolation => rfl
    | invalidTextRepresentation => rfl
    | notAnArray => rfl
  · intro p t hf hr huid hno htp
    rw [huid]
    exact add_client_success_case db t email p hf hr hno htp

/-- Witness for C3 at a concrete email with no matching profile. -/
theorem add_client_by_email_outcomes_witness :
    add_client_by_email dbW (some "t1") "nobody@x" = (dbW, notFoundJson) :=
  (add_client_by_email_outcomes dbW (some "t1") "nobody@x").1 rfl

/-- C9.  The operation checks nothing about the caller: any authenticated
caller with a profile row — whatever its role — gets the link inserted
with themselves as trainer, including a self-link. -/
theorem add_client_no_caller_role_check
    (db : DB) (t email : String) (p : ProfileRow)
    (hfind : findProfileByEmail db email = some p)
    (hrole : p.role = "client")
    (hnolink : db.clients.any (fun c => c.trainer_id = t && c.client_id = p.id) = false)
    (htp : db.hasProfile t = true) :
    add_client_by_email db (some t) email
      = ({ db with clients := db.clients ++ [⟨t, p.id⟩] }, addSuccessJson p.id) :=
  add_client_success_case db t email p hfind hrole hnolink htp

/-- Witness for C9: a caller whose own role is client links themselves to
themselves. -/
theorem add_client_no_caller_role_check_witness :
    findProfileByEmail dbW "c@x" = some ⟨"c1", some "Carl", some "c@x", "client"⟩ ∧
    add_client_by_email dbW (some "c1") "c@x"
      = ({ dbW with clients := dbW.clients ++ [⟨"c1", "c1"⟩] }, addSuccessJson "c1") :=
  ⟨rfl,
   add_client_no_caller_role_check dbW "c1" "c@x"
     ⟨"c1", some "Carl", some "c@x", "client"⟩ rfl rfl rfl rfl⟩

/-- C10.  For a fresh account id, `handle_new_user` fails — and with it the
enclosing account creation — exactly when the metadata's role is absent or
not one of the two accepted values, or the email duplicates an existing
profile's; and a registration whose metadata lacks `full_name` still
succeeds, inserting a profile row whose `full_name` is null. -/
theorem handle_new_user_role_gate
    (db : DB) (idv : String) (emailv : Option String) (meta : Json)
    (hid : db.profiles.any (fun p => p.id = idv) = false) :
    ((∃ err, handle_new_user db idv emailv meta = .error err) ↔
      (jFieldText meta "role" = none ∨
       (∃ r, jFieldText meta "role" = some r ∧ r ≠ "trainer" ∧ r ≠ "client") ∨
       (∃ e, emailv = some e ∧ db.profiles.any (fun p => p.email = some e) = true))) ∧
    (∀ r, jFieldText meta "role" = some r → (r = "trainer" ∨ r = "client") →
       (match emailv with
        | some e => db.profiles.any (fun p => p.email = some e)
        | none => false) = false →
       handle_new_user db idv emailv meta
         = .ok { db with
                   profiles := db.profiles
                     ++ [⟨idv, jFieldText meta "full_name", emailv, r⟩] }) := by
  constructor
  · unfold handle_new_user insertProfileRow
    cases hrv : jFieldText meta "role" with
    | none =>
      constructor
      · intro _
        exact Or.inl rfl
      · intro _
        exact ⟨PgError.notNullViolation, rfl⟩
    | some r =>
      cases hb : (decide (r = "trainer") || decide (r = "client")) with
      | false =>
        have hb2 : ¬ r = "trainer" ∧ ¬ r = "client" := by
          constructor <;> intro hh <;> simp [hh] at hb
        constructor
        · intro _
          exact Or.inr (Or.inl ⟨r, rfl, hb2.1, hb2.2⟩)
        · intro _
          exact ⟨PgError.checkViolation, by simp [hb]⟩
      | true =>
        have hval : r = "trainer" ∨ r = "client" := by
          rcases Bool.or_eq_true_iff.mp hb with h | h
          · exact Or.inl (of_decide_eq_true h)
          · exact Or.inr (of_decide_eq_true h)
        cases emailv with
        | none =>
          constructor
          · rintro ⟨err, herr⟩
            simp [hb, hid] at herr
          · rintro (h1 | ⟨r2, hr2, hn1, hn2⟩ | ⟨e, he, _⟩)
            · exact Option.noConfusion h1
            · cases Option.some.inj hr2
              rcases hval with h | h
              · exact absurd h hn1
              · exact absurd h hn2
            · exact Option.noConfusion he
        | some e =>
          cases hdup : db.profiles.any (fun p => p.email = some e) with
          | true =>
            constructor
            · intro _
              exact Or.inr (Or.inr ⟨e, rfl, hdup⟩)
            · intro _
              exact ⟨PgError.uniqueViolation, by simp [hb, hid, hdup]⟩
          | false =>
            constructor
            · rintro ⟨err, herr⟩
              simp [hb, hid, hdup] at herr
            · rintro (h1 | ⟨r2, hr2, hn1, hn2⟩ | ⟨e2, he2, hdup2⟩)
              · exact Option.noConfusion h1
              · cases Option.some.inj hr2
                rcases hval with h | h
                · exact absurd h hn1
                · exact absurd h hn2
              · cases Option.some.inj he2
                rw [hdup2] at hdup
                exact Bool.noConfusion hdup
  · intro r hr hval hdup
    unfold handle_new_user insertProfileRow
    rw [hr]
    have hb : (decide (r = "trainer") || decide (r = "client")) = true := by
      rcases hval with h | h <;> simp [h]
    cases emailv with
    | none => simp [hb, hid]
    | some e =>
      simp only at hdup
      simp [hb, hid, hdup]

/-- Witness for C10: a fresh id, a metadata document carrying only a valid
role and no `full_name`, and a non-duplicate email produce a profile row
with null `full_name`. -/
theorem handle_new_user_role_gate_witness :
    dbW.profiles.any (fun p => p.id = "u9") = false ∧
    handle_new_user dbW "u9" (some "new@x") (Json.obj [("role", Json.str "client")])
      = .ok { dbW with
                profiles := dbW.profiles ++ [⟨"u9", none, some "new@x", "client"⟩] } :=
  ⟨rfl,
   (handle_new_user_role_gate dbW "u9" (some "new@x")
       (Json.obj [("role", Json.str "client")]) rfl).2 "client" rfl (Or.inr rfl) rfl⟩

/-- C4 amended.  Every outcome of `add_client_by_email` is a normal tagged
document whose status field is "success" or "error"; `create_full_program`
returns a tagged document only on success (status "success") — its
failures are raised to the caller as thrown errors (see the
counterexample) and roll the transaction back. -/
theorem mutation_failures_tagged_amended :
    (∀ (db : DB) (uid : Option String) (email : String),
        jGet (add_client_by_email db uid email).2 "status" = some (Json.str "success") ∨
        jGet (add_client_by_email db uid email).2 "status" = some (Json.str "error")) ∧
    (∀ (db : DB) (uid pn pd cid : Option String) (days : Json) (db2 : DB) (j : Json),
        create_full_program db uid pn pd cid days = .ok (db2, j) →
        jGet j "status" = some (Json.str "success")) := by
  constructor
  · intro db uid email
    unfold add_client_by_email
    split
    · exact Or.inr rfl
    · split
      · exact Or.inr rfl
      · split
        · exact Or.inl rfl
        · exact Or.inr rfl
        · exact Or.inr rfl
  · intro db uid pn pd cid days db2 j h
    unfold create_full_program at h
    cases hp : insertProgramRow db uid pn pd cid with
    | error e =>
      rw [hp] at h
      exact absurd h (by simp [Bind.bind, Except.bind])
    | ok r =>
      obtain ⟨db1, pid⟩ := r
      rw [hp] at h
      simp only [Bind.bind, Except.bind] at h
      cases hd : jsonbArrayElems days with
      | error e =>
        rw [hd] at h
        exact absurd h (by simp)
      | ok dayList =>
        rw [hd] at h
        simp only at h
        cases hl : insertDaysLoop db1 pid dayList with
        | error e =>
          rw [hl] at h
          exact absurd h (by simp)
        | ok db3 =>
          rw [hl] at h
          simp only at h
          obtain ⟨-, rfl⟩ := Prod.mk.inj (Except.ok.inj h)
          rfl

/-- Witness for the amended C4: a concrete successful call's document is
tagged with status "success". -/
theorem mutation_failures_tagged_amended_witness :
    jGet (programSuccessJson dbW.next_program_id) "status" = some (Json.str "success") :=
  mutation_failures_tagged_amended.2 dbW (some "t1") (some "Empty") none (some "c1")
    (Json.arr [])
    ({ dbW with
         training_programs := dbW.training_programs
           ++ [⟨dbW.next_program_id, "Empty", none, "t1", "c1"⟩],
         next_program_id := dbW.next_program_id + 1 })
    (programSuccessJson dbW.next_program_id) rfl

/-- The day order a day descriptor denotes (the value its `day_order`
field casts to on the success path). -/
def dayOrderOf (d : Json) : Option Int :=
  match castIntOpt (jFieldText d "day_order") with
  | .ok v => v
  | .error _ => none

/-- The exercise order an assignment descriptor denotes. -/
def exOrderOf (e : Json) : Option Int :=
  match castIntOpt (jFieldText e "exercise_order") with
  | .ok v => v
  | .error _ => none

/-- The assignment descriptors carried by a day descriptor (empty when the
key is absent; on the success path a present value is an array). -/
def exsOf (d : Json) : List Json :=
  match jGet d "exercises" with
  | some (.arr xs) => xs
  | _ => []

/-- Inversion of a successful bind in the error monad. -/
theorem except_bind_ok {α β : Type} (x : Except PgError α) (f : α → Except PgError β) (b : β)
    (h : (x >>= f) = .ok b) : ∃ a, x = .ok a ∧ f a = .ok b := by
  cases x with
  | error e => exact absurd h (by simp [Bind.bind, Except.bind])
  | ok a => exact ⟨a, rfl, by simpa [Bind.bind, Except.bind] using h⟩

/-- On success the collected day exercises are exactly `exsOf`. -/
theorem dayExercisesElems_ok (d : Json) (exs : List Json)
    (h : dayExercisesElems d = .ok exs) : exs = exsOf d := by
  unfold dayExercisesElems at h
  unfold exsOf
  cases hg : jGet d "exercises" with
  | none => rw [hg] at h; cases h; rfl
  | some v =>
    rw [hg] at h
    cases v with
    | arr xs => cases h; rfl
    | null => exact absurd h (by simp)
    | bool b => exact absurd h (by simp)
    | num n => exact absurd h (by simp)
    | str s => exact absurd h (by simp)
    | obj fs => exact absurd h (by simp)

/-- Shape of a successful `program_exercises` insert: one row appended,
referencing the given day and carrying the descriptor's order. -/
theorem insertPeRow_ok (db : DB) (did : Int) (e : Json) (db2 : DB)
    (h : insertPeRow db did e = .ok db2) :
    ∃ row : PeRow,
      db2.program_exercises = db.program_exercises ++ [row] ∧
      row.day_id = did ∧
      row.exercise_order = exOrderOf e ∧
      db2.training_days = db.training_days ∧
      db2.training_programs = db.training_programs ∧
      db2.next_day_id = db.next_day_id ∧
      db2.next_program_id = db.next_program_id := by
  unfold insertPeRow at h
  obtain ⟨exidOpt, h1, h⟩ := except_bind_ok _ _ _ h
  obtain ⟨setsv, h2, h⟩ := except_bind_ok _ _ _ h
  obtain ⟨restv, h3, h⟩ := except_bind_ok _ _ _ h
  obtain ⟨orderv, h4, h⟩ := except_bind_ok _ _ _ h
  cases exidOpt with
  | none => exact absurd h (by simp)
  | some exid =>
    simp only at h
    split at h
    · exact absurd h (by simp)
    · split at h
      · exact absurd h (by simp)
      · have hdb := Except.ok.inj h
        refine ⟨⟨db.next_pe_id, did, exid, setsv, jFieldText e "reps", restv,
                 jFieldText e "notes", orderv⟩,
                ?_, rfl, ?_, ?_, ?_, ?_, ?_⟩
        · rw [← hdb]
        · simp [exOrderOf, h4]
        · rw [← hdb]
        · rw [← hdb]
        · rw [← hdb]
        · rw [← hdb]

/-- Shape of a successful `training_days` insert: the generated id is the
current counter, and one row for the given program is appended, carrying
the descriptor's day order. -/
theorem insertDayRow_ok (db : DB) (pid : Int) (d : Json) (db1 : DB) (did : Int)
    (h : insertDayRow db pid d = .ok (db1, did)) :
    did = db.next_day_id ∧
    (∃ nm, db1.training_days
        = db.training_days ++ [⟨db.next_day_id, pid, nm, dayOrderOf d⟩]) ∧
    db1.program_exercises = db.program_exercises ∧
    db1.training_programs = db.training_programs ∧
    db1.next_day_id = db.next_day_id + 1 ∧
    db1.next_program_id = db.next_program_id := by
  unfold insertDayRow at h
  obtain ⟨orderv, h1, h⟩ := except_bind_ok _ _ _ h
  cases hnm : jFieldText d "name" with
  | none => rw [hnm] at h; exact absurd h (by simp)
  | some nm =>
    rw [hnm] at h
    simp only at h
    have hp := Except.ok.inj h
    have hdb : ({ db with
        training_days := db.training_days ++ [⟨db.next_day_id, pid, nm, orderv⟩],
        next_day_id := db.next_day_id + 1 } : DB) = db1 := congrArg Prod.fst hp
    have hdid : did = db.next_day_id := (congrArg Prod.snd hp).symm
    have hord : dayOrderOf d = orderv := by simp [dayOrderOf, h1]
    refine ⟨hdid, ⟨nm, ?_⟩, ?_, ?_, ?_, ?_⟩
    · rw [← hdb, hord]
    · rw [← hdb]
    · rw [← hdb]
    · rw [← hdb]
    · rw [← hdb]

/-- Shape of a successful `training_programs` insert. -/
theorem insertProgramRow_ok (db : DB) (uid pn pd cid : Option String) (db1 : DB) (pid : Int)
    (h : insertProgramRow db uid pn pd cid = .ok (db1, pid)) :
    pid = db.next_program_id ∧
    db1.training_days = db.training_days ∧
    db1.program_exercises = db.program_exercises ∧
    db1.next_day_id = db.next_day_id ∧
    (∃ rowp, db1.training_programs = db.training_programs ++ [rowp]) ∧
    db1.next_program_id = db.next_program_id + 1 := by
  unfold insertProgramRow at h
  cases pn with
  | none => exact absurd h (by simp)
  | some nm =>
    cases uid with
    | none => exact absurd h (by simp)
    | some t =>
      cases cid with
      | none => exact absurd h (by simp)
      | some c =>
        simp only at h
        split at h
        · exact absurd h (by simp)
        · split at h
          · exact absurd h (by simp)
          · have hp := Except.ok.inj h
            have hdb : ({ db with
                training_programs := db.training_programs
                  ++ [⟨db.next_program_id, nm, pd, t, c⟩],
                next_program_id := db.next_program_id + 1 } : DB) = db1 :=
              congrArg Prod.fst hp
            have hpid : pid = db.next_program_id := (congrArg Prod.snd hp).symm
            refine ⟨hpid, ?_, ?_, ?_, ⟨⟨db.next_program_id, nm, pd, t, c⟩, ?_⟩, ?_⟩
            · rw [← hdb]
            · rw [← hdb]
            · rw [← hdb]
            · rw [← hdb]
            · rw [← hdb]

/-- Shape of a successful run of the inner exercise loop: exactly one row
per descriptor, appended in input order, all referencing the given day and
carrying the input order values. -/
theorem insertPeRows_ok :
    ∀ (exs : List Json) (db : DB) (did : Int) (db2 : DB),
      insertPeRows db did exs = .ok db2 →
      ∃ rows : List PeRow,
        db2.program_exercises = db.program_exercises ++ rows ∧
        (∀ r ∈ rows, r.day_id = did) ∧
        rows.map (fun r => r.exercise_order) = exs.map exOrderOf ∧
        db2.training_days = db.training_days ∧
        db2.training_programs = db.training_programs ∧
        db2.next_day_id = db.next_day_id ∧
        db2.next_program_id = db.next_program_id
  | [], db, did, db2, h => by
    have hdb : db = db2 := Except.ok.inj h
    exact ⟨[], by rw [← hdb]; simp, by simp, by simp, by rw [← hdb], by rw [← hdb],
           by rw [← hdb], by rw [← hdb]⟩
  | e :: rest, db, did, db2, h => by
    obtain ⟨db1, h1, h2⟩ := except_bind_ok _ _ _ h
    obtain ⟨row, hr1, hr2, hr3, hr4, hr5, hr6, hr7⟩ := insertPeRow_ok db did e db1 h1
    obtain ⟨rows, hs1, hs2, hs3, hs4, hs5, hs6, hs7⟩ := insertPeRows_ok rest db1 did db2 h2
    refine ⟨row :: rows, ?_, ?_, ?_, ?_, ?_, ?_, ?_⟩
    · rw [hs1, hr1, List.append_assoc]
      rfl
    · intro r hr
      rcases List.mem_cons.mp hr with hh | hh
      · rw [hh]; exact hr2
      · exact hs2 r hh
    · simp only [List.map_cons]
      rw [hs3, hr3]
    · rw [hs4, hr4]
    · rw [hs5, hr5]
    · rw [hs6, hr6]
    · rw [hs7, hr7]

/-- Consecutive ids starting at `base` split as `base` followed by
consecutive ids starting at `base + 1`. -/
theorem range_map_shift (base : Int) :
    ∀ n : Nat, (List.range (n + 1)).map (fun i : Nat => base + (i : Int))
      = base :: (List.range n).map (fun i : Nat => (base + 1) + (i : Int))
  | 0 => by simp [List.range_succ]
  | n + 1 => by
    rw [List.range_succ, List.map_append, range_map_shift base n, List.range_succ,
        List.map_append]
    simp only [List.cons_append]
    have hlast : base + ((n + 1 : Nat) : Int) = (base + 1) + (n : Int) := by
      push_cast
      ring
    rw [show (List.map (fun i : Nat => base + (i : Int)) [n + 1])
          = [base + ((n + 1 : Nat) : Int)] from rfl, hlast]
    rfl

/-- Shape of a successful run of the day loop: one day row per descriptor
in input order with consecutive generated ids, and for each day exactly its
descriptors' assignment rows, in input order, referencing that day's id. -/
theorem insertDaysLoop_ok :
    ∀ (ds : List Json) (db : DB) (pid : Int) (db2 : DB),
      insertDaysLoop db pid ds = .ok db2 →
      ∃ (dayRows : List DayRow) (peRows : List PeRow),
        db2.training_days = db.training_days ++ dayRows ∧
        db2.program_exercises = db.program_exercises ++ peRows ∧
        db2.training_programs = db.training_programs ∧
        db2.next_program_id = db.next_program_id ∧
        db2.next_day_id = db.next_day_id + (ds.length : Int) ∧
        dayRows.map (fun r => r.day_order) = ds.map dayOrderOf ∧
        dayRows.map (fun r => r.id)
          = (List.range ds.length).map (fun i : Nat => db.next_day_id + (i : Int)) ∧
        (∀ r ∈ dayRows, r.program_id = pid) ∧
        peRows.length = (ds.map (fun d => (exsOf d).length)).sum ∧
        (∀ r ∈ peRows, db.next_day_id ≤ r.day_id) ∧
        (∀ i, i < ds.length →
          (peRows.filter (fun r => r.day_id = db.next_day_id + (i : Int))).map
              (fun r => r.exercise_order)
            = (exsOf (ds.getD i Json.null)).map exOrderOf)
  | [], db, pid, db2, h => by
    have hdb : db = db2 := Except.ok.inj h
    subst hdb
    refine ⟨[], [], ?_, ?_, ?_, ?_, ?_, ?_, ?_, ?_, ?_, ?_, ?_⟩ <;>
      first
        | simp
        | (intro i hi; exact absurd hi (by simp))
  | d :: rest, db, pid, db2, h => by
    obtain ⟨r, h1, h⟩ := except_bind_ok _ _ _ h
    obtain ⟨db1, did⟩ := r
    obtain ⟨exs, hexs, h⟩ := except_bind_ok _ _ _ h
    obtain ⟨db3, hpes, h⟩ := except_bind_ok _ _ _ h
    obtain ⟨hdid, ⟨nm, hdays⟩, hpe_eq, hprog_eq, hnext, hprog_next⟩ :=
      insertDayRow_ok db pid d db1 did h1
    obtain ⟨rows0, hp1, hp2, hp3, hp4, hp5, hp6, hp7⟩ :=
      insertPeRows_ok exs db1 did db3 hpes
    obtain ⟨dayRows2, peRows2, q1, q2, q3, q4, q5, q6, q7, q8, q9, q10, q11⟩ :=
      insertDaysLoop_ok rest db3 pid db2 h
    have hexs2 : exs = exsOf d := dayExercisesElems_ok d exs hexs
    have hN : db3.next_day_id = db.next_day_id + 1 := by rw [hp6, hnext]
    have hlen0 : rows0.length = exs.length := by
      have := congrArg List.length hp3
      simpa using this
    refine ⟨⟨db.next_day_id, pid, nm, dayOrderOf d⟩ :: dayRows2, rows0 ++ peRows2,
            ?_, ?_, ?_, ?_, ?_, ?_, ?_, ?_, ?_, ?_, ?_⟩
    · rw [q1, hp4, hdays, List.append_assoc]
      rfl
    · rw [q2, hp1, hpe_eq, List.append_assoc]
    · rw [q3, hp5, hprog_eq]
    · rw [q4, hp7, hprog_next]
    · rw [q5, hN]
      simp only [List.length_cons]
      push_cast
      ring
    · simp only [List.map_cons]
      rw [q6]
    · simp only [List.map_cons]
      rw [show (d :: rest).length = rest.length + 1 from rfl,
          range_map_shift db.next_day_id rest.length]
      congr 1
      rw [q7, hN]
    · intro r hr
      rcases List.mem_cons.mp hr with hh | hh
      · rw [hh]
      · exact q8 r hh
    · simp only [List.length_append, List.map_cons, List.sum_cons]
      rw [hlen0, q9, hexs2]
    · intro r hr
      rcases List.mem_append.mp hr with hh | hh
      · have := hp2 r hh
        rw [this, hdid]
      · have := q10 r hh
        omega
    · intro i hi
      rw [List.filter_append]
      cases i with
      | zero =>
        have hfa : rows0.filter (fun r => r.day_id = db.next_day_id + ((0 : Nat) : Int))
            = rows0 := by
          rw [List.filter_eq_self]
          intro r hr
          simp [hp2 r hr, hdid]
        have hfb : peRows2.filter (fun r => r.day_id = db.next_day_id + ((0 : Nat) : Int))
            = [] := by
          rw [List.filter_eq_nil_iff]
          intro r hr
          have := q10 r hr
          simp only [decide_eq_true_eq]
          omega
        rw [hfa, hfb, List.append_nil, hp3, hexs2]
        rfl
      | succ j =>
        have hj : j < rest.length := by
          simpa using Nat.lt_of_succ_lt_succ hi
        have hfa : rows0.filter (fun r => r.day_id = db.next_day_id + ((j + 1 : Nat) : Int))
            = [] := by
          rw [List.filter_eq_nil_iff]
          intro r hr
          have := hp2 r hr
          simp only [decide_eq_true_eq]
          rw [this, hdid]
          push_cast
          omega
        have hAB : db.next_day_id + ((j + 1 : Nat) : Int) = db3.next_day_id + (j : Int) := by
          rw [hN]
          push_cast
          ring
        rw [hfa, List.nil_append, hAB]
        have := q11 j hj
        simpa using this

/-- C2.  For every composite-create input, conditioning on a successful
call: the returned document carries the new program's id; the day rows
referencing that program are exactly one per day descriptor, in input
order, with consecutive generated ids and the input `day_order` values;
exactly the sum of the per-day assignment counts is inserted into
`program_exercises`; and for each day descriptor i, the rows referencing
its day row carry exactly its descriptors' `exercise_order` values in
input order.  The freshness hypotheses say the generated-id counters are
ahead of every stored row, which every reachable state satisfies. -/
theorem create_full_program_success_rows
    (db : DB) (uid pn pd cid : Option String) (ds : List Json) (db2 : DB) (ret : Json)
    (hd : ∀ r ∈ db.training_days, r.program_id ≠ db.next_program_id)
    (hpe : ∀ r ∈ db.program_exercises, r.day_id < db.next_day_id)
    (h : create_full_program db uid pn pd cid (Json.arr ds) = .ok (db2, ret)) :
    ret = programSuccessJson db.next_program_id ∧
    ((db2.training_days.filter (fun r => r.program_id = db.next_program_id)).map
        (fun r => r.day_order)) = ds.map dayOrderOf ∧
    ((db2.training_days.filter (fun r => r.program_id = db.next_program_id)).map
        (fun r => r.id))
      = (List.range ds.length).map (fun i : Nat => db.next_day_id + (i : Int)) ∧
    db2.program_exercises.length
      = db.program_exercises.length + (ds.map (fun d => (exsOf d).length)).sum ∧
    (∀ i, i < ds.length →
      (db2.program_exercises.filter
          (fun r => r.day_id = db.next_day_id + (i : Int))).map
          (fun r => r.exercise_order)
        = (exsOf (ds.getD i Json.null)).map exOrderOf) := by
  unfold create_full_program at h
  obtain ⟨r, h1, h⟩ := except_bind_ok _ _ _ h
  obtain ⟨db1, pid⟩ := r
  obtain ⟨dl, hdl, h⟩ := except_bind_ok _ _ _ h
  have hds : ds = dl := Except.ok.inj hdl
  subst hds
  obtain ⟨db3, hloop, h⟩ := except_bind_ok _ _ _ h
  have hfin := Except.ok.inj h
  have hdb2 : db3 = db2 := congrArg Prod.fst hfin
  have hret : programSuccessJson pid = ret := congrArg Prod.snd hfin
  obtain ⟨hpid, hb1, hb2, hb3, ⟨rowp, hb4⟩, hb5⟩ :=
    insertProgramRow_ok db uid pn pd cid db1 pid h1
  obtain ⟨dayRows, peRows, q1, q2, q3, q4, q5, q6, q7, q8, q9, q10, q11⟩ :=
    insertDaysLoop_ok ds db1 pid db3 hloop
  have hold_days : db.training_days.filter
      (fun r => r.program_id = db.next_program_id) = [] := by
    rw [List.filter_eq_nil_iff]
    intro r hr
    simpa using hd r hr
  have hnew_days : dayRows.filter (fun r => r.program_id = db.next_program_id)
      = dayRows := by
    rw [List.filter_eq_self]
    intro r hr
    simp [q8 r hr, ← hpid]
  refine ⟨?_, ?_, ?_, ?_, ?_⟩
  · rw [← hret, hpid]
  · rw [← hdb2, q1, hb1, List.filter_append, hold_days, hnew_days, List.nil_append, q6]
  · rw [← hdb2, q1, hb1, List.filter_append, hold_days, hnew_days, List.nil_append, q7,
        hb3]
  · rw [← hdb2, q2, hb2, List.length_append, q9]
  · intro i hi
    have hold_pe : db.program_exercises.filter
        (fun r => r.day_id = db.next_day_id + (i : Int)) = [] := by
      rw [List.filter_eq_nil_iff]
      intro r hr
      have := hpe r hr
      simp only [decide_eq_true_eq]
      omega
    rw [← hdb2, q2, hb2, List.filter_append, hold_pe, List.nil_append, ← hb3]
    exact q11 i hi

/-- The concrete two-day input of the spec's example scenario. -/
def dsW : List Json :=
  [.obj [("name", .str "Day 1"), ("day_order", .num 1),
         ("exercises", .arr [.obj [("exercise_id", .num 1), ("sets", .num 3),
                                   ("reps", .str "8-12"),
                                   ("rest_period_seconds", .num 60),
                                   ("exercise_order", .num 1)]])],
   .obj [("name", .str "Day 2"), ("day_order", .num 2),
         ("exercises", .arr [.obj [("exercise_id", .num 1), ("sets", .num 4),
                                   ("reps", .str "5"),
                                   ("rest_period_seconds", .num 60),
                                   ("exercise_order", .num 1)]])]]

/-- The state `create_full_program` produces from `dbW` on input `dsW`. -/
def db2W : DB :=
  { profiles := dbW.profiles
    clients := []
    exercises := dbW.exercises
    training_programs := [⟨1, "Push Pull Legs", none, "t1", "c1"⟩]
    training_days := [⟨1, 1, "Day 1", some 1⟩, ⟨2, 1, "Day 2", some 2⟩]
    program_exercises := [⟨1, 1, 1, some 3, some "8-12", some 60, none, some 1⟩,
                          ⟨2, 2, 1, some 4, some "5", some 60, none, some 1⟩]
    next_program_id := 2
    next_day_id := 3
    next_pe_id := 3 }

/-- Witness for C2 on the spec's "Push Pull Legs" scenario. -/
theorem create_full_program_success_rows_witness :
    (∀ r ∈ dbW.training_days, r.program_id ≠ dbW.next_program_id) ∧
    (∀ r ∈ dbW.program_exercises, r.day_id < dbW.next_day_id) ∧
    (programSuccessJson 1 = programSuccessJson dbW.next_program_id ∧
     ((db2W.training_days.filter (fun r => r.program_id = dbW.next_program_id)).map
         (fun r => r.day_order)) = dsW.map dayOrderOf ∧
     ((db2W.training_days.filter (fun r => r.program_id = dbW.next_program_id)).map
         (fun r => r.id))
       = (List.range dsW.length).map (fun i : Nat => dbW.next_day_id + (i : Int)) ∧
     db2W.program_exercises.length
       = dbW.program_exercises.length + (dsW.map (fun d => (exsOf d).length)).sum ∧
     (∀ i, i < dsW.length →
       (db2W.program_exercises.filter
           (fun r => r.day_id = dbW.next_day_id + (i : Int))).map
           (fun r => r.exercise_order)
         = (exsOf (dsW.getD i Json.null)).map exOrderOf)) :=
  ⟨by decide, by decide,
   create_full_program_success_rows dbW (some "t1") (some "Push Pull Legs") none
     (some "c1") dsW db2W (programSuccessJson 1) (by decide) (by decide) rfl⟩
